import Mathlib

/-!
Verification model of `mediawords/solr/query.py`: a Solr-flavored boolean
query parser with a tree-filter pass and two emitters (PostgreSQL tsquery
and POSIX regex).  The Python source is shallowly embedded: every class,
method and module function of the source is rendered as a Lean definition
of the same name where possible.  Python `None` is modeled by the `Node`
constructor `PyNone` (calling a method on it yields `AttributeError`, as
in Python).  Recursions that are not structural in the source (the token
loop, the phrase re-emission) take an explicit fuel argument; exhaustion
is the distinguished outcome `OutOfFuel`, which never occurs on the
inputs considered.
-/

namespace MWSolr

/-- Python `NOOP_PLACEHOLDER` (query.py line 31). -/
def NOOP_PLACEHOLDER : String := "__NOOP__"

/-- Python `FIELD_PLACEHOLDER` (query.py line 34). -/
def FIELD_PLACEHOLDER : String := "__FIELD__"

/-- Python `WILD_PLACEHOLDER` (query.py line 37). -/
def WILD_PLACEHOLDER : String := "__WILD__"

/-- The token types `T_*` of query.py lines 18-28. -/
inductive TokType where
  | T_OPEN
  | T_CLOSE
  | T_PHRASE
  | T_AND
  | T_OR
  | T_NOT
  | T_FIELD
  | T_TERM
  | T_PLUS
  | T_MINUS
  | T_NOOP
deriving DecidableEq, Repr

/-- Python class `Token`: a token value together with its `T_*` type. -/
structure Token where
  token_value : String
  token_type : TokType
deriving DecidableEq, Repr

/-- The exceptions the Python module can raise.  `ParseSyntaxError` and
`ValueError` carry the message from the `raise` site.  `AttributeError`
models any method/attribute access on `None`; `IndexError` models
`list.pop` / `[0]` on an empty list; `TokenizeError` models a failure of
Python's `tokenize` module (unterminated string); `OutOfFuel` is a model
artifact for the fuel-bounded recursions. -/
inductive QErr where
  | ParseSyntaxError (msg : String)
  | ValueError (msg : String)
  | AttributeError
  | IndexError
  | TokenizeError
  | OutOfFuel
deriving DecidableEq, Repr

/-- Python's `\w` character class restricted to ASCII, which is all the
queries under study contain: letters, digits and underscore. -/
def pyIsWordChar (c : Char) : Bool :=
  ('a' ≤ c && c ≤ 'z') || ('A' ≤ c && c ≤ 'Z') || ('0' ≤ c && c ≤ '9') || c = '_'

/-- ASCII lower-casing of one character, as Python `str.lower` acts on the
ASCII queries under study. -/
def pyLowerChar (c : Char) : Char :=
  if 'A' ≤ c && c ≤ 'Z' then Char.ofNat (c.toNat + 32) else c

/-- Python `str.lower` on ASCII strings. -/
def pyLowerStr (s : String) : String :=
  String.mk (s.toList.map pyLowerChar)

/-- `str.replace(a, b)` for single characters `a`, `b`. -/
def subChar (a b : Char) (cs : List Char) : List Char :=
  cs.map fun c => if c = a then b else c

/-- Left-to-right, non-overlapping replacement of the substring `pat` by
`repl`, as Python `str.replace` / `re.sub` with a literal pattern.  Fuel
is the input length plus one, so it never runs out. -/
def replaceSubAux (pat repl : List Char) : Nat → List Char → List Char
  | 0, _ => []
  | _ + 1, [] => []
  | f + 1, c :: rest =>
    if pat ≠ [] && pat.isPrefixOf (c :: rest) then
      repl ++ replaceSubAux pat repl f ((c :: rest).drop pat.length)
    else
      c :: replaceSubAux pat repl f rest

/-- String-level wrapper for `replaceSubAux`. -/
def strReplaceAll (pat repl s : String) : String :=
  String.mk (replaceSubAux pat.toList repl.toList (s.toList.length + 1) s.toList)

/-- Substring containment test (`pat in s` in Python). -/
def containsSub (pat cs : List Char) : Bool :=
  (List.range (cs.length + 1)).any fun i => pat.isPrefixOf (cs.drop i)

/-- Suffix test (`str.endswith`). -/
def strEndsWith (s suffix : String) : Bool :=
  List.isSuffixOf suffix.toList s.toList

/-- One attempted anchored match of the range pattern `\w+:\[[^\]]*\]`
(query.py line 540) at the head of `cs`; on success returns the rest of
the input after the match.  Since `:` is not a word character, the greedy
`\w+` needs no backtracking, and `[^\]]*` extends to the first `]`. -/
def rangeMatch (cs : List Char) : Option (List Char) :=
  match cs.span pyIsWordChar with
  | (_ :: _, ':' :: '[' :: r2) =>
    match (r2.span fun d => d ≠ ']').2 with
    | ']' :: r4 => some r4
    | _ => none
  | _ => none

/-- `re.sub('\w+:\[[^\]]*\]', NOOP_PLACEHOLDER, query)` (query.py line
540): scan left to right, replacing each leftmost match. -/
def noopRanges : Nat → List Char → List Char
  | 0, _ => []
  | _ + 1, [] => []
  | f + 1, c :: rest =>
    match rangeMatch (c :: rest) with
    | some r4 => NOOP_PLACEHOLDER.toList ++ noopRanges f r4
    | none => c :: noopRanges f rest

/-- Model of Python `tokenize.generate_tokens` (stdlib) restricted to the
query alphabet produced by the normalization steps: runs of word
characters form one token, a single- or double-quoted span forms one
token keeping its quotes, every other non-space character is its own
one-character token.  (On this alphabet Python's tokenizer behaves the
same; number/name juxtapositions such as `1abc`, on which Python would
emit two tokens, do not occur in the queries under study.)  Empty token
values (NEWLINE/ENDMARKER) are skipped by the source loop and therefore
not emitted here.  The generator's end-of-input check — a `TokenError`
when the line ends at nonzero net paren level — fires only after every
token of the (single) line has been yielded and classified, so it is
modeled in `get_tokens` after classification. -/
def lexQueryAux : Nat → List Char → Except QErr (List String)
  | 0, _ => .error .OutOfFuel
  | _ + 1, [] => .ok []
  | f + 1, c :: rest =>
    if c = ' ' || c = '\t' then
      lexQueryAux f rest
    else if c = '"' || c = '\'' then
      match rest.span fun d => d ≠ c with
      | (inner, _ :: after) =>
        match lexQueryAux f after with
        | .error e => .error e
        | .ok ts => .ok (String.mk (c :: (inner ++ [c])) :: ts)
      | (_, []) => .error .TokenizeError
    else if pyIsWordChar c then
      match lexQueryAux f ((c :: rest).span pyIsWordChar).2 with
      | .error e => .error e
      | .ok ts => .ok (String.mk ((c :: rest).span pyIsWordChar).1 :: ts)
    else
      match lexQueryAux f rest with
      | .error e => .error e
      | .ok ts => .ok (String.mk [c] :: ts)

/-- The paren-level contribution of one raw token, as Python `tokenize`
tracks it: `+1` for a token starting with an opening bracket, `-1` for a
closing one (quoted strings start with a quote and count 0). -/
def tokParenDelta (t : String) : Int :=
  match t.toList with
  | c :: _ =>
    if c = '(' || c = '[' || c = '\x7b' then 1
    else if c = ')' || c = ']' || c = '\x7d' then -1
    else 0
  | [] => 0

/-- The net paren level of a raw token stream.  Python's
`tokenize.generate_tokens` raises `TokenError("EOF in multi-line
statement")` when the input ends at a nonzero net level (of either
sign) — e.g. for the wrapped queries `( foo ) )` and `( foo ( )`. -/
def parenLevel (raw : List String) : Int :=
  raw.foldl (fun acc t => acc + tokParenDelta t) 0

/-- `^\w+__WILD__$` (query.py line 515): equivalent, because the
placeholder consists of word characters, to: all characters are word
characters, the string ends with the placeholder, and it is longer than
the placeholder. -/
def wildTermOk (t : String) : Bool :=
  t.toList.all pyIsWordChar && strEndsWith t WILD_PLACEHOLDER
    && WILD_PLACEHOLDER.toList.length < t.toList.length

/-- Python `__get_token_type` (query.py lines 494-524): classify one raw
token string, in the source's test order. -/
def getTokenType (t : String) : Except QErr TokType :=
  if t = "(" then .ok .T_OPEN
  else if t = ")" then .ok .T_CLOSE
  else if (match t.toList with | c :: _ => c = '\'' || c = '"' | [] => false) then .ok .T_PHRASE
  else if pyLowerStr t = "and" then .ok .T_AND
  else if pyLowerStr t = "or" then .ok .T_OR
  else if pyLowerStr t = "not" || pyLowerStr t = "!" || pyLowerStr t = "-" then .ok .T_NOT
  else if t = "+" then .ok .T_PLUS
  else if t = "~" then .error (.ParseSyntaxError "proximity searches not supported")
  else if t = "/" then .error (.ParseSyntaxError "regular expression searches not supported")
  else if containsSub WILD_PLACEHOLDER.toList t.toList && ! wildTermOk t then
    .error (.ParseSyntaxError ("* can only appear the end of a term: " ++ t))
  else if t = NOOP_PLACEHOLDER then .ok .T_NOOP
  else if strEndsWith t FIELD_PLACEHOLDER then .ok .T_FIELD
  else if t.toList ≠ [] && t.toList.all pyIsWordChar then .ok .T_TERM
  else .error (.ParseSyntaxError ("unrecognized token '" ++ t ++ "'"))

/-- Python `__get_tokens` (query.py lines 491-559): normalize (lowercase;
`!`→`-`; newlines→space; ranges→`__NOOP__`; `:`→`__FIELD__ `;
`*`→`__WILD__`), tokenize, classify each non-empty token, and propagate
the tokenizer's end-of-input `TokenError` for a query whose tokens end
at nonzero net paren level (raised by the generator after the last token
of the line has been consumed and classified). -/
def get_tokens (query : String) : Except QErr (List Token) :=
  let q1 := query.toList.map pyLowerChar
  let q2 := subChar '!' '-' q1
  let q3 := subChar '\r' ' ' (subChar '\n' ' ' q2)
  let q4 := noopRanges (q3.length + 1) q3
  let q5 := q4.flatMap fun c => if c = ':' then (FIELD_PLACEHOLDER ++ " ").toList else [c]
  let q6 := q5.flatMap fun c => if c = '*' then WILD_PLACEHOLDER.toList else [c]
  match lexQueryAux (q6.length + 1) q6 with
  | .error e => .error e
  | .ok raw =>
    match (raw.mapM (fun v =>
        match getTokenType v with
        | .error e => .error e
        | .ok tt => .ok (Token.mk v tt)) : Except QErr (List Token)) with
    | .error e => .error e
    | .ok toks =>
      -- the generator yields every token of the single line before its
      -- end-of-input check, so classification errors come first and the
      -- `TokenError` for a line ending at nonzero paren level comes last
      if parenLevel raw ≠ 0 then .error .TokenizeError else .ok toks

/-- The parse-tree node hierarchy of query.py (classes `TermNode`,
`AndNode`, `OrNode`, `NotNode`, `FieldNode`, `NoopNode`), plus `PyNone`
for Python's `None` (the parser's `clause` variable and operand slots can
hold `None`).  The `filtered_by` field models the `filtered_by_function`
attribute: Python stores the filter-function object there, compared by
object identity, which is modeled by a `Nat` identifier.  The mutable
`parent` back-reference is not modeled; no public operation reads it (its
only observable effect, raising `AttributeError` when a constructor
receives a `None` operand, is modeled at the construction sites). -/
inductive Node where
  | PyNone
  | TermNode (term : String) (wildcard phrase : Bool) (filtered_by : Option Nat)
  | AndNode (operands : List Node) (filtered_by : Option Nat)
  | OrNode (operands : List Node) (filtered_by : Option Nat)
  | NotNode (operand : Node) (filtered_by : Option Nat)
  | FieldNode (field : String) (operand : Node) (filtered_by : Option Nat)
  | NoopNode (filtered_by : Option Nat)
deriving Repr

/-- Python truthiness of a node variable: only `None` is falsy. -/
def Node.isNull : Node → Bool
  | .PyNone => true
  | _ => false

/-- `type(clause) in (AndNode, OrNode)` (query.py line 388). -/
def Node.isBoolNode : Node → Bool
  | .AndNode _ _ => true
  | .OrNode _ _ => true
  | _ => false

/-- The `filtered_by_function` attribute (`none` on freshly built nodes). -/
def Node.getFiltered : Node → Option Nat
  | .PyNone => none
  | .TermNode _ _ _ m => m
  | .AndNode _ m => m
  | .OrNode _ m => m
  | .NotNode _ m => m
  | .FieldNode _ _ m => m
  | .NoopNode m => m

/-- `filtered_tree.filtered_by_function = filter_function` (query.py line
147); the source only ever assigns it on a non-`None` node. -/
def Node.setFiltered (pid : Nat) : Node → Node
  | .PyNone => .PyNone
  | .TermNode t w p _ => .TermNode t w p (some pid)
  | .AndNode ops _ => .AndNode ops (some pid)
  | .OrNode ops _ => .OrNode ops (some pid)
  | .NotNode op _ => .NotNode op (some pid)
  | .FieldNode f op _ => .FieldNode f op (some pid)
  | .NoopNode _ => .NoopNode (some pid)

/-- The `want_type` lists of `__parse_tokens`.  `WANT_DEFAULT` is the
line-374 default; `WANT_GROUP` the line-406 recursion list; `WANT_AFTER_OPEN`
the line-407 update; `WANT_SIMPLE` the `[T_CLOSE, T_AND, T_OR, T_PLUS]`
update; `WANT_AFTER_BOOL` the line-431 update; the `FIELD`/`NOT` lists are
from lines 447-465. -/
def WANT_DEFAULT : List TokType := [.T_OPEN, .T_PHRASE, .T_NOT, .T_TERM]

def WANT_GROUP : List TokType :=
  [.T_OPEN, .T_PHRASE, .T_NOT, .T_FIELD, .T_TERM, .T_NOOP, .T_CLOSE]

def WANT_AFTER_OPEN : List TokType :=
  [.T_OPEN, .T_PHRASE, .T_NOT, .T_FIELD, .T_TERM, .T_NOOP, .T_CLOSE, .T_AND, .T_OR, .T_PLUS]

def WANT_SIMPLE : List TokType := [.T_CLOSE, .T_AND, .T_OR, .T_PLUS]

def WANT_AFTER_BOOL : List TokType :=
  [.T_OPEN, .T_PHRASE, .T_NOT, .T_FIELD, .T_TERM, .T_NOOP, .T_CLOSE, .T_PLUS]

def WANT_FIELD_GROUP : List TokType :=
  [.T_PHRASE, .T_NOT, .T_TERM, .T_NOOP, .T_CLOSE, .T_PLUS]

def WANT_FIELD_SINGLE : List TokType := [.T_PHRASE, .T_TERM, .T_NOOP]

def WANT_NOT_GROUP : List TokType :=
  [.T_FIELD, .T_PHRASE, .T_NOT, .T_TERM, .T_NOOP, .T_CLOSE, .T_PLUS]

def WANT_NOT_SINGLE : List TokType := [.T_PHRASE, .T_TERM, .T_NOOP, .T_FIELD]

/-- The `T_TERM` branch (query.py lines 416-423): strip every occurrence
of the wildcard placeholder and set the wildcard flag when the value ends
with it. -/
def mkTermNode (v : String) : Node :=
  if strEndsWith v WILD_PLACEHOLDER then
    .TermNode (strReplaceAll WILD_PLACEHOLDER "" v) true false none
  else
    .TermNode v false false none

/-- The boolean-token branch (query.py lines 430-440): reuse the operand
list when `clause` is already of the constructed kind, otherwise wrap
`clause` as the single operand.  `BooleanNode.__init__` sets
`operand.parent` on every operand, so a `None` among them raises
`AttributeError`. -/
def mkBooleanNode (isOr : Bool) (clause : Node) : Except QErr Node :=
  match isOr, clause with
  | false, .AndNode ops _ =>
    if ops.any Node.isNull then .error .AttributeError else .ok (.AndNode ops none)
  | true, .OrNode ops _ =>
    if ops.any Node.isNull then .error .AttributeError else .ok (.OrNode ops none)
  | _, c =>
    if c.isNull then .error .AttributeError
    else .ok (if isOr then .OrNode [c] none else .AndNode [c] none)

/-- The operand-attachment step (query.py lines 473-480): splice the
operand lists when the kinds agree, otherwise append `clause` (a plain
list mutation, which does not run `__init__` and therefore accepts
`None`).  `boolean_clause` is always an `AndNode` or `OrNode` when this
runs; the last arm is unreachable. -/
def combineBoolean (bc clause : Node) : Node :=
  match bc, clause with
  | .AndNode ops m, .AndNode ops2 _ => .AndNode (ops ++ ops2) m
  | .OrNode ops m, .OrNode ops2 _ => .OrNode (ops ++ ops2) m
  | .AndNode ops m, c => .AndNode (ops ++ [c]) m
  | .OrNode ops m, c => .OrNode (ops ++ [c]) m
  | b, _ => b

/-- Step 7 of the loop body (query.py lines 473-480): when a
`boolean_clause` is pending, attach the just-parsed clause to it and make
it the current clause. -/
def applyBoolean (clause bc : Node) : Node :=
  if bc.isNull then clause else combineBoolean bc clause

/-- Steps 391-401 of the loop body: when a boolean is hanging, move the
current clause into `boolean_clause`; otherwise, when a clause already
exists and a clause-starting token arrives, push it back and synthesize
an implicit OR (or an implicit AND before a NOT).  Returns the token
list, the token to process, and the updated `boolean_clause`. -/
def step3 (hb0 : Bool) (clause bc0 : Node) (tok : Token) (rest : List Token) :
    List Token × Token × Node :=
  if hb0 then (rest, tok, clause)
  else if ! clause.isNull
      && (tok.token_type ∈ [TokType.T_OPEN, .T_PHRASE, .T_TERM, .T_NOOP, .T_FIELD]) then
    (tok :: rest, Token.mk "or" .T_OR, bc0)
  else if ! clause.isNull && tok.token_type = .T_NOT then
    (tok :: rest, Token.mk "and" .T_AND, bc0)
  else (rest, tok, bc0)

/-- Python `__parse_tokens` (query.py lines 360-488), rendered as a
fuel-bounded loop over the token list.  The state is the remaining
tokens, `want_type`, `clause`, `boolean_clause` and `hanging_boolean`;
the returned pair is the parsed clause and the tokens left after the
terminating `T_CLOSE` (Python mutates the shared list in place).  Every
recursive step decreases fuel by one; `parse` supplies more fuel than the
loop can consume, so `OutOfFuel` never occurs through `parse`. -/
def parseLoop : Nat → List Token → List TokType → Node → Node → Bool →
    Except QErr (Node × List Token)
  | 0, _, _, _, _, _ => .error .OutOfFuel
  | _ + 1, [], _, clause, _, _ => .ok (clause, [])
  | f + 1, tok :: rest, want, clause, bc0, hb0 =>
    -- line 388: a T_PLUS at the start of a clause or right after a boolean is skipped
    if tok.token_type = .T_PLUS && (clause.isNull || clause.isBoolNode) then
      parseLoop f rest want clause bc0 hb0
    else
      -- lines 391-401: clear a hanging boolean, or synthesize an implicit OR/AND
      match step3 hb0 clause bc0 tok rest with
      | (toks, token, bc) =>
        -- line 403: __check_type
        if token.token_type ∉ want then
          .error (.ParseSyntaxError "Token is not one of the following expected types")
        else
          match token.token_type with
          | .T_OPEN =>
            match parseLoop f toks WANT_GROUP .PyNone .PyNone false with
            | .error e => .error e
            | .ok (cl, toks') =>
              parseLoop f toks' (WANT_AFTER_OPEN ++ [.T_CLOSE]) (applyBoolean cl bc) .PyNone false
          | .T_CLOSE => .ok (clause, toks)
          | .T_NOOP =>
            parseLoop f toks (WANT_SIMPLE ++ [.T_CLOSE])
              (applyBoolean (.NoopNode none) bc) .PyNone false
          | .T_TERM =>
            parseLoop f toks (WANT_SIMPLE ++ [.T_CLOSE])
              (applyBoolean (mkTermNode token.token_value) bc) .PyNone false
          | .T_PHRASE =>
            parseLoop f toks (WANT_SIMPLE ++ [.T_CLOSE])
              (applyBoolean (.TermNode token.token_value false true none) bc) .PyNone false
          | .T_AND =>
            match mkBooleanNode false clause with
            | .error e => .error e
            | .ok c =>
              parseLoop f toks (WANT_AFTER_BOOL ++ [.T_CLOSE]) (applyBoolean c bc) .PyNone true
          | .T_PLUS =>
            match mkBooleanNode false clause with
            | .error e => .error e
            | .ok c =>
              parseLoop f toks (WANT_AFTER_BOOL ++ [.T_CLOSE]) (applyBoolean c bc) .PyNone true
          | .T_OR =>
            match mkBooleanNode true clause with
            | .error e => .error e
            | .ok c =>
              parseLoop f toks (WANT_AFTER_BOOL ++ [.T_CLOSE]) (applyBoolean c bc) .PyNone true
          | .T_FIELD =>
            match toks with
            | [] => .error .IndexError
            | next :: rest2 =>
              if next.token_type = .T_OPEN then
                match parseLoop f rest2 WANT_FIELD_GROUP .PyNone .PyNone false with
                | .error e => .error e
                | .ok (fieldClause, toks') =>
                  if fieldClause.isNull then .error .AttributeError
                  else
                    parseLoop f toks' (WANT_SIMPLE ++ [.T_CLOSE])
                      (applyBoolean
                        (.FieldNode (strReplaceAll FIELD_PLACEHOLDER "" token.token_value)
                          fieldClause none) bc) .PyNone false
              else
                match parseLoop f [next] WANT_FIELD_SINGLE .PyNone .PyNone false with
                | .error e => .error e
                | .ok (fieldClause, _) =>
                  if fieldClause.isNull then .error .AttributeError
                  else
                    parseLoop f rest2 (WANT_SIMPLE ++ [.T_CLOSE])
                      (applyBoolean
                        (.FieldNode (strReplaceAll FIELD_PLACEHOLDER "" token.token_value)
                          fieldClause none) bc) .PyNone false
          | .T_NOT =>
            match toks with
            | [] => .error .IndexError
            | next :: rest2 =>
              if next.token_type = .T_OPEN then
                match parseLoop f rest2 WANT_NOT_GROUP .PyNone .PyNone false with
                | .error e => .error e
                | .ok (operand, toks') =>
                  if operand.isNull then .error .AttributeError
                  else
                    parseLoop f toks' (WANT_SIMPLE ++ [.T_CLOSE])
                      (applyBoolean (.NotNode operand none) bc) .PyNone false
              else if next.token_type = .T_FIELD then
                match parseLoop f (next :: rest2) [.T_FIELD] .PyNone .PyNone false with
                | .error e => .error e
                | .ok (operand, toks') =>
                  if operand.isNull then .error .AttributeError
                  else
                    parseLoop f toks' (WANT_SIMPLE ++ [.T_CLOSE])
                      (applyBoolean (.NotNode operand none) bc) .PyNone false
              else
                match parseLoop f [next] WANT_NOT_SINGLE .PyNone .PyNone false with
                | .error e => .error e
                | .ok (operand, _) =>
                  if operand.isNull then .error .AttributeError
                  else
                    parseLoop f rest2 (WANT_SIMPLE ++ [.T_CLOSE])
                      (applyBoolean (.NotNode operand none) bc) .PyNone false
          | .T_MINUS =>
            -- line 469: the catch-all branch; T_MINUS is never produced by the lexer
            .error (.ParseSyntaxError "unknown type for token")

/-- Python `parse` (query.py lines 562-570): wrap the query in an
implicit group, tokenize, and run the token loop with the default
`want_type`.  `decode_string_from_bytes_if_needed` is a collaborator
that returns an already-decoded string unchanged, modeled as the
identity. -/
def parse (solr_query : String) : Except QErr Node :=
  match get_tokens ("( " ++ solr_query ++ " )") with
  | .error e => .error e
  | .ok tokens =>
    match parseLoop (8 * tokens.length + 32) tokens WANT_DEFAULT .PyNone .PyNone false with
    | .error e => .error e
    | .ok (n, _) => .ok n

mutual

/-- A computable node count, used as a generous fuel bound for the
tsquery emitter (the emission recursion of query.py is bounded by the
tree size plus two extra levels per phrase term). -/
def Node.nsize : Node → Nat
  | .PyNone => 1
  | .TermNode t _ _ _ => 4 + t.toList.length
  | .AndNode ops _ => 1 + Node.nsizeList ops
  | .OrNode ops _ => 1 + Node.nsizeList ops
  | .NotNode op _ => 1 + Node.nsize op
  | .FieldNode _ op _ => 1 + Node.nsize op
  | .NoopNode _ => 1
termination_by structural n => n

/-- Sum of `Node.nsize` over a list. -/
def Node.nsizeList : List Node → Nat
  | [] => 1
  | o :: rest => Node.nsize o + Node.nsizeList rest
termination_by structural ops => ops

end

/-- Python `ParseNode.__node_is_field_or_noop` (query.py lines 90-99):
true for a `FieldNode` whose field is not `sentence`, and for a
`NoopNode`. -/
def node_is_field_or_noop : Node → Bool
  | .FieldNode field _ _ => field ≠ "sentence"
  | .NoopNode _ => true
  | _ => false

/-- Python `ParseNode.__node_is_field_or_noop_or_not` (query.py lines
101-110): as above, plus every `NotNode`. -/
def node_is_field_or_noop_or_not : Node → Bool
  | .FieldNode field _ _ => field ≠ "sentence"
  | .NoopNode _ => true
  | .NotNode _ _ => true
  | _ => false

/-- Model of the Python function-object identity of
`__node_is_field_or_noop`, the predicate `tsquery()` filters with. -/
def PID_TSQUERY : Nat := 0

/-- Model of the Python function-object identity of
`__node_is_field_or_noop_or_not`, the predicate `re()` filters with. -/
def PID_RE : Nat := 1

mutual

/-- Python `ParseNode.filter_tree` (query.py lines 130-148) together
with the per-class `_filter_node_children` methods it dispatches to
(query.py lines 215-217, 245-247, 300-303, 329-332, 350-352, and
`_filter_boolean_node_children`, lines 115-128), which are inlined as
the match arms here.  `pid` is the identity of the passed
function object (stored in `filtered_by` and compared with `==`, i.e.
object identity); `p` is its behavior.  Called on `None` (an operand
slot holding `None`), attribute access raises.  A matching memo returns
`self`; a true predicate removes the node; otherwise the children are
filtered and the memo is recorded on the freshly built tree (lines
145-148).  Leaves return fresh copies; boolean nodes keep the operands
that survive, or vanish when none does; `Not`/`Field` vanish with their
operand. -/
def filter_tree (pid : Nat) (p : Node → Bool) (n : Node) : Except QErr (Option Node) :=
  if n.isNull then .error .AttributeError
  else if n.getFiltered = some pid then .ok (some n)
  else if p n then .ok none
  else
    match n with
    | .PyNone => .error .AttributeError
    | .TermNode t w ph _ => .ok (some ((Node.TermNode t w ph none).setFiltered pid))
    | .NoopNode _ => .ok (some ((Node.NoopNode none).setFiltered pid))
    | .AndNode ops _ =>
      match filterOperands pid p ops with
      | .error e => .error e
      | .ok l =>
        if l.isEmpty then .ok none else .ok (some ((Node.AndNode l none).setFiltered pid))
    | .OrNode ops _ =>
      match filterOperands pid p ops with
      | .error e => .error e
      | .ok l =>
        if l.isEmpty then .ok none else .ok (some ((Node.OrNode l none).setFiltered pid))
    | .NotNode op _ =>
      match filter_tree pid p op with
      | .error e => .error e
      | .ok none => .ok none
      | .ok (some fo) => .ok (some ((Node.NotNode fo none).setFiltered pid))
    | .FieldNode field op _ =>
      match filter_tree pid p op with
      | .error e => .error e
      | .ok none => .ok none
      | .ok (some fo) => .ok (some ((Node.FieldNode field fo none).setFiltered pid))
termination_by structural n

/-- The loop of `_filter_boolean_node_children` (query.py lines 119-123):
filter each operand, keeping the truthy results in order. -/
def filterOperands (pid : Nat) (p : Node → Bool) (ops : List Node) :
    Except QErr (List Node) :=
  match ops with
  | [] => .ok []
  | o :: rest =>
    match filter_tree pid p o with
    | .error e => .error e
    | .ok fo =>
      match filterOperands pid p rest with
      | .error e => .error e
      | .ok l =>
        match fo with
        | some x => .ok (x :: l)
        | none => .ok l
termination_by structural ops

end

/-- Python `' X '.join` of already-emitted operand strings. -/
def joinSep (sep : String) : List String → String
  | [] => ""
  | [s] => s
  | s :: rest => s ++ sep ++ joinSep sep rest

/-- Python `shlex.split(term)[0]` as used on phrase terms, which the
lexer always produces as one fully quoted span: strip the surrounding
quotes.  An empty string makes `[0]` raise `IndexError`; an unterminated
quote makes `shlex` raise `ValueError`; an unquoted term contributes its
first whitespace-delimited field. -/
def shlex_first (s : String) : Except QErr String :=
  match s.toList with
  | [] => .error .IndexError
  | c :: rest =>
    if c = '"' || c = '\'' then
      match rest.getLast? with
      | some d =>
        if d = c then .ok (String.mk rest.dropLast)
        else .error (.ValueError "No closing quotation")
      | none => .error (.ValueError "No closing quotation")
    else
      .ok (String.mk ((c :: rest).span fun d => d ≠ ' ').1)

/-- `re.split('\W+', s)` with the empty fragments discarded (query.py
lines 186-188): the maximal runs of word characters. -/
def wordRuns : Nat → List Char → List String
  | 0, _ => []
  | _ + 1, [] => []
  | f + 1, c :: rest =>
    if pyIsWordChar c then
      String.mk ((c :: rest).span pyIsWordChar).1 :: wordRuns f ((c :: rest).span pyIsWordChar).2
    else
      wordRuns f rest

/-- The words of a phrase term: dequote, then split on non-word runs. -/
def phraseWords (term : String) : Except QErr (List String) :=
  match shlex_first term with
  | .error e => .error e
  | .ok dequoted => .ok (wordRuns (dequoted.toList.length + 1) dequoted.toList)

mutual

/-- The `get_tsquery` methods (query.py lines 182-195, 238-240, 294-295,
317-321, 344-345).  A phrase term re-emits as an `AndNode` over its
words, which is not structurally smaller, hence the fuel (decremented
once per emission step; the callers supply more than the recursion can
consume). -/
def get_tsquery : Nat → Node → Except QErr String
  | 0, _ => .error .OutOfFuel
  | _ + 1, .PyNone => .error .AttributeError
  | f + 1, .TermNode term wildcard phrase _ =>
    if phrase then
      match phraseWords term with
      | .error e => .error e
      | .ok ws =>
        if ws.isEmpty then .error (.ParseSyntaxError "empty phrase not allowed")
        else get_tsquery f (.AndNode (ws.map fun w => .TermNode w false false none) none)
    else .ok (if wildcard then term ++ ":*" else term)
  | f + 1, .AndNode ops _ =>
    match tsqueryList f ops with
    | .error e => .error e
    | .ok ss => .ok ("( " ++ joinSep " & " ss ++ " )")
  | f + 1, .OrNode ops _ =>
    match tsqueryList f ops with
    | .error e => .error e
    | .ok ss => .ok ("( " ++ joinSep " | " ss ++ " )")
  | f + 1, .NotNode op _ =>
    match get_tsquery f op with
    | .error e => .error e
    | .ok s => .ok ("!" ++ s)
  | f + 1, .FieldNode field op _ =>
    if field = "sentence" then get_tsquery f op
    else .error (.ValueError "non-sentence field nodes should have been filtered")
  | _ + 1, .NoopNode _ => .error (.ValueError "noop nodes should have been filtered")
termination_by structural f _ => f

/-- `map(lambda x: x.get_tsquery(), self.operands)` (query.py line 240). -/
def tsqueryList : Nat → List Node → Except QErr (List String)
  | _, [] => .ok []
  | 0, _ :: _ => .error .OutOfFuel
  | f + 1, o :: rest =>
    match get_tsquery f o with
    | .error e => .error e
    | .ok s =>
      match tsqueryList f rest with
      | .error e => .error e
      | .ok ss => .ok (s :: ss)
termination_by structural f _ => f

end

/-- `re.escape` on the ASCII strings under study, in the classic
convention: word characters stand for themselves, every other character
is backslash-escaped.  (Terms reaching it here consist of word
characters only, where every Python version agrees.) -/
def pyReEscape (s : String) : String :=
  String.mk (s.toList.flatMap fun c => if pyIsWordChar c then [c] else ['\\', c])

/-- `\s` for the ASCII strings under study. -/
def pyIsSpace (c : Char) : Bool :=
  c = ' ' || c = '\t' || c = '\n' || c = '\r'

/-- `re.sub(r'\s+', 'SPACE', term)` (query.py line 206): collapse each
whitespace run to the placeholder word. -/
def spaceRunsToPlaceholder : Nat → List Char → List Char
  | 0, _ => []
  | _ + 1, [] => []
  | f + 1, c :: rest =>
    if pyIsSpace c then
      "SPACE".toList ++ spaceRunsToPlaceholder f (rest.dropWhile pyIsSpace)
    else
      c :: spaceRunsToPlaceholder f rest

mutual

/-- The `get_re` methods (query.py lines 197-213, 259-268, 280-281,
297-298, 323-327, 347-348).  Structural: the `AndNode` emitter recurses
along its operand list. -/
def get_re : Node → Except QErr String
  | .PyNone => .error .AttributeError
  | .TermNode term _ phrase _ =>
    if phrase then
      match shlex_first term with
      | .error e => .error e
      | .ok t0 =>
        let t1 := pyLowerStr t0
        let t2 := String.mk (spaceRunsToPlaceholder (t1.toList.length + 1) t1.toList)
        let t3 := pyReEscape t2
        let t4 := strReplaceAll "SPACE" "[[:space:]]+" t3
        .ok ("[[:<:]]" ++ t4)
    else .ok ("[[:<:]]" ++ pyReEscape term)
  | .AndNode ops _ => andGetRe ops
  | .OrNode ops _ =>
    match orReList ops with
    | .error e => .error e
    | .ok ss => .ok ("(?: " ++ joinSep " | " ss ++ " )")
  | .NotNode _ _ => .error (.ParseSyntaxError "not operations not supported for re()")
  | .FieldNode field op _ =>
    if field = "sentence" then get_re op
    else .error (.ValueError "non-sentence field nodes should have been filtered")
  | .NoopNode _ => .error (.ValueError "noop nodes should have been filtered")
termination_by structural n => n

/-- `AndNode.get_re` (query.py lines 259-268): one operand emits alone;
otherwise the head and the recursively emitted tail are joined as an
unordered adjacency alternation.  An empty list would make `operands[0]`
raise `IndexError`. -/
def andGetRe : List Node → Except QErr String
  | [] => .error .IndexError
  | [x] => get_re x
  | x :: y :: rest =>
    match get_re x with
    | .error e => .error e
    | .ok a =>
      match andGetRe (y :: rest) with
      | .error e => .error e
      | .ok b => .ok ("(?: (?: " ++ a ++ " .* " ++ b ++ " ) | (?: " ++ b ++ " .* " ++ a ++ " ) )")
termination_by structural ops => ops

/-- `map(lambda x: x.get_re(), self.operands)` (query.py line 281). -/
def orReList : List Node → Except QErr (List String)
  | [] => .ok []
  | o :: rest =>
    match get_re o with
    | .error e => .error e
    | .ok s =>
      match orReList rest with
      | .error e => .error e
      | .ok ss => .ok (s :: ss)
termination_by structural ops => ops

end

/-- Python `ParseNode.tsquery` (query.py lines 150-158): filter with
`__node_is_field_or_noop`; an empty result is a syntax error, otherwise
emit.  Calling the method on `None` raises. -/
def Node.tsquery (n : Node) : Except QErr String :=
  match n with
  | .PyNone => .error .AttributeError
  | _ =>
    match filter_tree PID_TSQUERY node_is_field_or_noop n with
    | .error e => .error e
    | .ok none => .error (.ParseSyntaxError "query is empty without fields or ranges")
    | .ok (some ft) => get_tsquery (2 * ft.nsize + 64) ft

/-- Python `ParseNode.re` (query.py lines 160-168): filter with
`__node_is_field_or_noop_or_not`; an empty result is a syntax error,
otherwise emit. -/
def Node.re (n : Node) : Except QErr String :=
  match n with
  | .PyNone => .error .AttributeError
  | _ =>
    match filter_tree PID_RE node_is_field_or_noop_or_not n with
    | .error e => .error e
    | .ok none => .error (.ParseSyntaxError "query is empty without fields or ranges")
    | .ok (some ft) => get_re ft

/-- `parse(q).tsquery()`, the pipeline the spec's scenarios exercise. -/
def query_tsquery (q : String) : Except QErr String :=
  match parse q with
  | .error e => .error e
  | .ok n => n.tsquery

/-- `parse(q).re()`. -/
def query_re (q : String) : Except QErr String :=
  match parse q with
  | .error e => .error e
  | .ok n => n.re

/-- `type(n) is AndNode`. -/
def Node.isAndNode : Node → Bool
  | .AndNode _ _ => true
  | _ => false

/-- `type(n) is OrNode`. -/
def Node.isOrNode : Node → Bool
  | .OrNode _ _ => true
  | _ => false

mutual

/-- The And/Or flattening invariant: no `AndNode` has an `AndNode` among
its direct operands and no `OrNode` has an `OrNode` among its direct
operands, recursively through the whole tree. -/
def flatB : Node → Bool
  | .PyNone => true
  | .TermNode _ _ _ _ => true
  | .NoopNode _ => true
  | .NotNode op _ => flatB op
  | .FieldNode _ op _ => flatB op
  | .AndNode ops _ => ops.all (fun o => ! o.isAndNode) && flatListB ops
  | .OrNode ops _ => ops.all (fun o => ! o.isOrNode) && flatListB ops
termination_by structural n => n

/-- `flatB` over an operand list. -/
def flatListB : List Node → Bool
  | [] => true
  | o :: rest => flatB o && flatListB rest
termination_by structural ops => ops

end

mutual

/-- No `NotNode` occurs anywhere in the tree. -/
def notFreeB : Node → Bool
  | .PyNone => true
  | .TermNode _ _ _ _ => true
  | .NoopNode _ => true
  | .NotNode _ _ => false
  | .FieldNode _ op _ => notFreeB op
  | .AndNode ops _ => notFreeListB ops
  | .OrNode ops _ => notFreeListB ops
termination_by structural n => n

/-- `notFreeB` over an operand list. -/
def notFreeListB : List Node → Bool
  | [] => true
  | o :: rest => notFreeB o && notFreeListB rest
termination_by structural ops => ops

end

mutual

/-- Every `filtered_by` memo in the tree is unset, as on every tree
freshly built by the parser. -/
def memoFreeB : Node → Bool
  | .PyNone => true
  | .TermNode _ _ _ m => m.isNone
  | .NoopNode m => m.isNone
  | .NotNode op m => m.isNone && memoFreeB op
  | .FieldNode _ op m => m.isNone && memoFreeB op
  | .AndNode ops m => m.isNone && memoFreeListB ops
  | .OrNode ops m => m.isNone && memoFreeListB ops
termination_by structural n => n

/-- `memoFreeB` over an operand list. -/
def memoFreeListB : List Node → Bool
  | [] => true
  | o :: rest => memoFreeB o && memoFreeListB rest
termination_by structural ops => ops

end

/-!
Heap-level model of the filter pass, used to state that filtering does
not mutate its input.  Python nodes are objects on a heap that the
source mutates (`operand.parent = self` in the constructors,
`filtered_by_function` assignment in `filter_tree`), so the frame
property is stated against an explicit store: nodes are records indexed
by `Nat` references, `filter_tree` threads the store, allocation appends,
and the two in-place writes update the `parent` / `filtered_by` fields of
an existing entry.  The pure `filter_tree` above and `filterS` below
model the same source method at two abstraction levels.
-/

/-- The dynamic class of a heap node. -/
inductive NKind where
  | KTerm
  | KAnd
  | KOr
  | KNot
  | KField
  | KNoop
deriving DecidableEq, Repr

/-- One heap-allocated parse node.  `operands` holds the child references
(`none` modeling a Python `None` in an operand slot); for `KNot` and
`KField` it is the single-element list holding `operand`. -/
structure NodeObj where
  kind : NKind
  term : String := ""
  wildcard : Bool := false
  phrase : Bool := false
  field : String := ""
  operands : List (Option Nat) := []
  parent : Option Nat := none
  filtered_by : Option Nat := none
deriving DecidableEq, Repr

/-- In-place update of the store entry at index `i` (no-op when the index
is absent, which never happens for well-formed references). -/
def modifyAt (st : List NodeObj) (i : Nat) (g : NodeObj → NodeObj) : List NodeObj :=
  match st[i]? with
  | some o => st.set i (g o)
  | none => st

/-- `operand.parent = self` (query.py lines 226, 289, 312). -/
def setParentS (st : List NodeObj) (i pr : Nat) : List NodeObj :=
  modifyAt st i fun o => { o with parent := some pr }

/-- `filtered_tree.filtered_by_function = filter_function` (line 147). -/
def setFilteredS (st : List NodeObj) (i pid : Nat) : List NodeObj :=
  modifyAt st i fun o => { o with filtered_by := some pid }

mutual

/-- `ParseNode.filter_tree` (query.py lines 130-148) over the explicit
store: `ref` is the receiver reference (`none` is Python `None`, whose
attribute access raises), the result is the possibly grown and
`parent`/`filtered_by`-updated store together with the reference of the
filtered tree.  Fresh nodes are appended at the end of the store. -/
def filterS : Nat → List NodeObj → Option Nat → Nat → (NodeObj → Bool) →
    Except QErr (List NodeObj × Option Nat)
  | 0, _, _, _, _ => .error .OutOfFuel
  | _ + 1, _, none, _, _ => .error .AttributeError
  | f + 1, st, some r, pid, p =>
    match st[r]? with
    | none => .error .AttributeError
    | some obj =>
      if obj.filtered_by = some pid then .ok (st, some r)
      else if p obj then .ok (st, none)
      else
        match obj.kind with
        | .KTerm =>
          .ok (setFilteredS
                (st ++ [{ kind := .KTerm, term := obj.term, wildcard := obj.wildcard,
                          phrase := obj.phrase }])
                st.length pid,
               some st.length)
        | .KNoop =>
          .ok (setFilteredS (st ++ [{ kind := .KNoop }]) st.length pid, some st.length)
        | .KAnd =>
          match filterOpsS f st obj.operands pid p with
          | .error e => .error e
          | .ok (st1, survivors) =>
            if survivors.isEmpty then .ok (st1, none)
            else
              .ok (setFilteredS
                    (survivors.foldl (fun s c => setParentS s c st1.length)
                      (st1 ++ [{ kind := .KAnd, operands := survivors.map some }]))
                    st1.length pid,
                   some st1.length)
        | .KOr =>
          match filterOpsS f st obj.operands pid p with
          | .error e => .error e
          | .ok (st1, survivors) =>
            if survivors.isEmpty then .ok (st1, none)
            else
              .ok (setFilteredS
                    (survivors.foldl (fun s c => setParentS s c st1.length)
                      (st1 ++ [{ kind := .KOr, operands := survivors.map some }]))
                    st1.length pid,
                   some st1.length)
        | .KNot =>
          match obj.operands with
          | [opr] =>
            match filterS f st opr pid p with
            | .error e => .error e
            | .ok (st1, none) => .ok (st1, none)
            | .ok (st1, some c) =>
              .ok (setFilteredS
                    (setParentS (st1 ++ [{ kind := .KNot, operands := [some c] }]) c st1.length)
                    st1.length pid,
                   some st1.length)
          | _ => .error .AttributeError
        | .KField =>
          match obj.operands with
          | [opr] =>
            match filterS f st opr pid p with
            | .error e => .error e
            | .ok (st1, none) => .ok (st1, none)
            | .ok (st1, some c) =>
              .ok (setFilteredS
                    (setParentS
                      (st1 ++ [{ kind := .KField, field := obj.field, operands := [some c] }])
                      c st1.length)
                    st1.length pid,
                   some st1.length)
          | _ => .error .AttributeError
termination_by structural f _ _ _ _ => f

/-- The operand loop of `_filter_boolean_node_children` (query.py lines
119-123) over the store, collecting the surviving child references in
order. -/
def filterOpsS : Nat → List NodeObj → List (Option Nat) → Nat → (NodeObj → Bool) →
    Except QErr (List NodeObj × List Nat)
  | _, st, [], _, _ => .ok (st, [])
  | 0, _, _ :: _, _, _ => .error .OutOfFuel
  | f + 1, st, o :: rest, pid, p =>
    match filterS f st o pid p with
    | .error e => .error e
    | .ok (st1, fo) =>
      match filterOpsS f st1 rest pid p with
      | .error e => .error e
      | .ok (st2, l) =>
        .ok (st2, match fo with | some x => x :: l | none => l)
termination_by structural f _ _ _ _ => f

end

/-- The node fields the no-mutation claim lists: class, term text,
wildcard/phrase flags, field name, and operand list (the mutable
`parent` and `filtered_by` attributes are deliberately not included). -/
def coreEq (a b : NodeObj) : Prop :=
  a.kind = b.kind ∧ a.term = b.term ∧ a.wildcard = b.wildcard ∧ a.phrase = b.phrase ∧
    a.field = b.field ∧ a.operands = b.operands

/-- Every entry of `st` is still present, with the same core fields, in
`st'`. -/
def corePreserved (st st' : List NodeObj) : Prop :=
  ∀ (i : Nat) (a : NodeObj), st[i]? = some a → ∃ b, st'[i]? = some b ∧ coreEq b a

/-! ## Lemmas and claim theorems -/

theorem setFiltered_isNull (n : Node) (pid : Nat) :
    (n.setFiltered pid).isNull = n.isNull := by
  cases n <;> rfl

theorem setFiltered_getFiltered (n : Node) (pid : Nat) (h : n.isNull = false) :
    (n.setFiltered pid).getFiltered = some pid := by
  cases n <;> first | rfl | simp [Node.isNull] at h

/-- A successful, surviving filter leaves the result non-`None` with its
memo recording the filtering function. -/
theorem filter_tree_ok_memo (pid : Nat) (p : Node → Bool) (t t' : Node)
    (h : filter_tree pid p t = .ok (some t')) :
    t'.isNull = false ∧ t'.getFiltered = some pid := by
  unfold filter_tree at h
  split at h
  · simp at h
  · rename_i h0
    split at h
    · rename_i h1
      obtain rfl : t = t' := by simpa using h
      exact ⟨by simpa using h0, h1⟩
    · split at h
      · simp at h
      · split at h
        · simp at h
        · obtain rfl : _ = t' := by simpa using h
          exact ⟨rfl, rfl⟩
        · obtain rfl : _ = t' := by simpa using h
          exact ⟨rfl, rfl⟩
        · split at h
          · simp at h
          · split at h
            · simp at h
            · obtain rfl : _ = t' := by simpa using h
              exact ⟨rfl, rfl⟩
        · split at h
          · simp at h
          · split at h
            · simp at h
            · obtain rfl : _ = t' := by simpa using h
              exact ⟨rfl, rfl⟩
        · split at h
          · simp at h
          · simp at h
          · obtain rfl : _ = t' := by simpa using h
            exact ⟨rfl, rfl⟩
        · split at h
          · simp at h
          · simp at h
          · obtain rfl : _ = t' := by simpa using h
            exact ⟨rfl, rfl⟩

/-- C4: filtering a tree a second time with the same predicate returns it
unchanged, through the recorded `filtered_by` memo. -/
theorem claim_C4_filter_idempotent (pid : Nat) (p : Node → Bool) (t t' : Node)
    (h : filter_tree pid p t = .ok (some t')) :
    filter_tree pid p t' = .ok (some t') := by
  obtain ⟨h1, h2⟩ := filter_tree_ok_memo pid p t t' h
  unfold filter_tree
  simp [h1, h2]

/-- C4 witness: a concrete run.  Filtering `foo and media_id:1` with the
tsquery predicate keeps only the term and records the memo; re-filtering
returns the same tree. -/
theorem claim_C4_filter_idempotent_witness :
    filter_tree PID_TSQUERY node_is_field_or_noop
        (.AndNode [.TermNode "foo" false false none,
                   .FieldNode "media_id" (.TermNode "1" false false none) none] none)
      = .ok (some (.AndNode [.TermNode "foo" false false (some PID_TSQUERY)] (some PID_TSQUERY)))
    ∧ filter_tree PID_TSQUERY node_is_field_or_noop
        (.AndNode [.TermNode "foo" false false (some PID_TSQUERY)] (some PID_TSQUERY))
      = .ok (some (.AndNode [.TermNode "foo" false false (some PID_TSQUERY)] (some PID_TSQUERY))) :=
  ⟨rfl,
   claim_C4_filter_idempotent PID_TSQUERY node_is_field_or_noop
     (.AndNode [.TermNode "foo" false false none,
                .FieldNode "media_id" (.TermNode "1" false false none) none] none)
     (.AndNode [.TermNode "foo" false false (some PID_TSQUERY)] (some PID_TSQUERY)) rfl⟩

/-- C1 counterexample: the two spec scenarios do not produce the claimed
strings — the emitted tsquery keeps the parentheses of the single-operand
`AndNode`, so the outputs differ from the claimed `( foo & bar )` and
`bar`. -/
theorem claim_C1_counterexample :
    query_tsquery "sentence:( foo and bar ) and media_id:1" = .ok "( ( foo & bar ) )"
      ∧ query_tsquery "foo:[1 TO 10] and bar" = .ok "( bar )"
      ∧ (("( ( foo & bar ) )" == "( foo & bar )") = false)
      ∧ (("( bar )" == "bar") = false) :=
  ⟨rfl, rfl, rfl, rfl⟩

/-- C1 amended: an `AndNode` left with a single surviving operand after
filtering still wraps its emission in parentheses (`BooleanNode.get_tsquery`
always emits `( … )`), so the two scenarios yield `( ( foo & bar ) )` and
`( bar )`. -/
theorem claim_C1_amended :
    query_tsquery "sentence:( foo and bar ) and media_id:1" = .ok "( ( foo & bar ) )"
      ∧ query_tsquery "foo:[1 TO 10] and bar" = .ok "( bar )" :=
  ⟨rfl, rfl⟩

/-- C2 counterexample: the empty string is not rejected with a syntax
error — `parse` returns Python `None` (`__parse_tokens` returns its
`clause` variable, still `None`, after the implicit group closes). -/
theorem claim_C2_counterexample : parse "" = .ok .PyNone :=
  rfl

/-- C2 amended: parse totality fails in several concrete ways, not only
on the empty string.  Well-formed queries such as `foo` and
`foo and bar` do return trees, and a rejected token raises a
`ParseSyntaxError` (`foo ~ 5`); but the accepted empty string returns a
null (`None`) result with no error, and not every failure is a syntax
error: `!()` raises `AttributeError` (from `NotNode(None)` on the empty
group) and `foo (` raises the tokenizer's `TokenError` (wrapped query
ending at nonzero paren level). -/
theorem claim_C2_amended :
    parse "" = .ok .PyNone
      ∧ parse "foo" = .ok (.TermNode "foo" false false none)
      ∧ parse "foo and bar" = .ok (.AndNode
          [.TermNode "foo" false false none, .TermNode "bar" false false none] none)
      ∧ parse "foo ~ 5" = .error (.ParseSyntaxError "proximity searches not supported")
      ∧ parse "!()" = .error .AttributeError
      ∧ parse "foo (" = .error .TokenizeError :=
  ⟨rfl, rfl, rfl, rfl, rfl, rfl⟩

/-- C7: the regex of a two-operand `AndNode` is the commutative adjacency
alternation, containing both word-boundary terms joined by `.*` in both
orders. -/
theorem claim_C7_commutative_re :
    query_re "foo and bar"
      = .ok "(?: (?: [[:<:]]foo .* [[:<:]]bar ) | (?: [[:<:]]bar .* [[:<:]]foo ) )" :=
  rfl

/-- C10 counterexample: `parse("foo )")` does not return a tree at all —
the wrapped query `( foo ) )` ends at net paren level `-1`, so the
tokenizer raises `TokenError` inside `__get_tokens` and the stray CLOSE
never reaches the parser. -/
theorem claim_C10_counterexample : parse "foo )" = .error .TokenizeError :=
  rfl

/-- C10 amended: `parse("foo )")` fails with the tokenizer's `TokenError`
rather than returning a tree; the cited early-termination behavior of
`__parse_tokens` (lines 409-410) does hold at the token level: fed the
token stream of `( foo ) )`, the loop returns the same single `TermNode`
as for `( foo )`, the stray `T_CLOSE` merely ending the implicit outer
group early. -/
theorem claim_C10_amended :
    parse "foo )" = .error .TokenizeError
      ∧ parseLoop 20 [⟨"(", .T_OPEN⟩, ⟨"foo", .T_TERM⟩, ⟨")", .T_CLOSE⟩, ⟨")", .T_CLOSE⟩]
          WANT_DEFAULT .PyNone .PyNone false
        = .ok (.TermNode "foo" false false none, [])
      ∧ parseLoop 20 [⟨"(", .T_OPEN⟩, ⟨"foo", .T_TERM⟩, ⟨")", .T_CLOSE⟩]
          WANT_DEFAULT .PyNone .PyNone false
        = .ok (.TermNode "foo" false false none, []) :=
  ⟨rfl, rfl, rfl⟩


theorem tsqueryList_plain (ws : List String) :
    ∀ f : Nat, ws.length < f →
      tsqueryList f (ws.map fun w => Node.TermNode w false false none) = .ok ws := by
  induction ws with
  | nil => intro f _; cases f <;> rfl
  | cons w rest ih =>
    intro f hf
    match f, hf with
    | f' + 1, hf =>
      have h1 : rest.length < f' := by simpa using hf
      have h2 : ∃ f'', f' = f'' + 1 := ⟨f' - 1, by omega⟩
      obtain ⟨f'', rfl⟩ := h2
      simp only [List.map, tsqueryList, get_tsquery]
      rw [ih (f'' + 1) h1]
      simp

theorem claim_C6_phrase_tsquery :
    query_tsquery "\"hello world\"" = .ok "( hello & world )"
    ∧ (∀ (f : Nat) (s : String) (w : Bool) (m : Option Nat), phraseWords s = .ok [] →
        get_tsquery (f + 1) (.TermNode s w true m)
          = .error (.ParseSyntaxError "empty phrase not allowed"))
    ∧ (∀ (f : Nat) (s : String) (w : Bool) (m : Option Nat) (ws : List String),
        phraseWords s = .ok ws → ws ≠ [] →
        get_tsquery (f + ws.length + 3) (.TermNode s w true m)
          = .ok ("( " ++ joinSep " & " ws ++ " )")) := by
  refine ⟨rfl, ?_, ?_⟩
  · intro f s w m h
    simp [get_tsquery, h]
  · intro f s w m ws h hne
    have : get_tsquery (f + ws.length + 3) (.TermNode s w true m)
        = get_tsquery (f + ws.length + 2)
            (.AndNode (ws.map fun w => Node.TermNode w false false none) none) := by
      simp [get_tsquery, h, hne]
    rw [this]
    simp only [get_tsquery]
    rw [tsqueryList_plain ws (f + ws.length + 1) (by omega)]

theorem claim_C6_phrase_tsquery_witness :
    get_tsquery 1 (.TermNode "\"\"" false true none)
        = .error (.ParseSyntaxError "empty phrase not allowed")
    ∧ get_tsquery 5 (.TermNode "\"hello world\"" false true none) = .ok "( hello & world )" :=
  ⟨claim_C6_phrase_tsquery.2.1 0 "\"\"" false none rfl,
   claim_C6_phrase_tsquery.2.2 0 "\"hello world\"" false none ["hello", "world"] rfl (by simp)⟩



theorem mkTermNode_isNull (v : String) : (mkTermNode v).isNull = false := by
  unfold mkTermNode; split <;> rfl

theorem mkTermNode_isBoolNode (v : String) : (mkTermNode v).isBoolNode = false := by
  unfold mkTermNode; split <;> rfl

theorem mkBooleanNode_or_mkTerm (v : String) :
    mkBooleanNode true (mkTermNode v) = .ok (.OrNode [mkTermNode v] none) := by
  unfold mkTermNode; split <;> rfl

theorem combineBoolean_or_mkTerm (ops : List Node) (m : Option Nat) (v : String) :
    combineBoolean (.OrNode ops m) (mkTermNode v) = .OrNode (ops ++ [mkTermNode v]) m := by
  unfold mkTermNode; split <;> rfl

theorem applyBoolean_none (c : Node) : applyBoolean c .PyNone = c := rfl

theorem applyBoolean_or_mkTerm (ops : List Node) (m : Option Nat) (v : String) :
    applyBoolean (mkTermNode v) (.OrNode ops m) = .OrNode (ops ++ [mkTermNode v]) m := by
  simp [applyBoolean, Node.isNull, combineBoolean_or_mkTerm]

theorem isNull_PyNone : Node.PyNone.isNull = true := rfl

theorem isNull_OrNode (ops : List Node) (m : Option Nat) : (Node.OrNode ops m).isNull = false := rfl

theorem isBoolNode_PyNone : Node.PyNone.isBoolNode = false := rfl

theorem isBoolNode_OrNode (ops : List Node) (m : Option Nat) :
    (Node.OrNode ops m).isBoolNode = true := rfl

/-- C5: two adjacent terms parse exactly as the same terms joined by an
explicit OR (the parser pushes the second term back and synthesizes an
OR token), and `parse("foo bar").tsquery()` is `( foo | bar )`. -/
theorem claim_C5_implicit_or :
    (∀ (f : Nat) (v1 v2 : String),
      parseLoop (f + 9) [⟨"(", .T_OPEN⟩, ⟨v1, .T_TERM⟩, ⟨v2, .T_TERM⟩, ⟨")", .T_CLOSE⟩]
          WANT_DEFAULT .PyNone .PyNone false
        = parseLoop (f + 9)
            [⟨"(", .T_OPEN⟩, ⟨v1, .T_TERM⟩, ⟨"or", .T_OR⟩, ⟨v2, .T_TERM⟩, ⟨")", .T_CLOSE⟩]
            WANT_DEFAULT .PyNone .PyNone false)
    ∧ parse "foo bar" = parse "foo or bar"
    ∧ query_tsquery "foo bar" = .ok "( foo | bar )" := by
  refine ⟨?_, rfl, rfl⟩
  intro f v1 v2
  have lhs : parseLoop (f + 9) [⟨"(", .T_OPEN⟩, ⟨v1, .T_TERM⟩, ⟨v2, .T_TERM⟩, ⟨")", .T_CLOSE⟩]
      WANT_DEFAULT .PyNone .PyNone false
      = .ok (.OrNode [mkTermNode v1, mkTermNode v2] none, []) := by
    simp [parseLoop, step3, WANT_DEFAULT, WANT_GROUP, WANT_AFTER_OPEN, WANT_SIMPLE,
      WANT_AFTER_BOOL, mkTermNode_isNull, mkTermNode_isBoolNode, mkBooleanNode_or_mkTerm,
      applyBoolean_none, applyBoolean_or_mkTerm, isNull_PyNone, isNull_OrNode,
      isBoolNode_PyNone, isBoolNode_OrNode]
  have rhs : parseLoop (f + 9)
      [⟨"(", .T_OPEN⟩, ⟨v1, .T_TERM⟩, ⟨"or", .T_OR⟩, ⟨v2, .T_TERM⟩, ⟨")", .T_CLOSE⟩]
      WANT_DEFAULT .PyNone .PyNone false
      = .ok (.OrNode [mkTermNode v1, mkTermNode v2] none, []) := by
    simp [parseLoop, step3, WANT_DEFAULT, WANT_GROUP, WANT_AFTER_OPEN, WANT_SIMPLE,
      WANT_AFTER_BOOL, mkTermNode_isNull, mkTermNode_isBoolNode, mkBooleanNode_or_mkTerm,
      applyBoolean_none, applyBoolean_or_mkTerm, isNull_PyNone, isNull_OrNode,
      isBoolNode_PyNone, isBoolNode_OrNode]
  rw [lhs, rhs]

theorem claim_C5_implicit_or_witness :
    parseLoop 9 [⟨"(", .T_OPEN⟩, ⟨"foo", .T_TERM⟩, ⟨"bar", .T_TERM⟩, ⟨")", .T_CLOSE⟩]
        WANT_DEFAULT .PyNone .PyNone false
      = parseLoop 9 [⟨"(", .T_OPEN⟩, ⟨"foo", .T_TERM⟩, ⟨"or", .T_OR⟩, ⟨"bar", .T_TERM⟩,
          ⟨")", .T_CLOSE⟩] WANT_DEFAULT .PyNone .PyNone false :=
  claim_C5_implicit_or.1 0 "foo" "bar"



theorem memoFreeList_mem (ops : List Node) (h : memoFreeListB ops = true) :
    ∀ o ∈ ops, memoFreeB o = true := by
  induction ops with
  | nil => intro o ho; simp at ho
  | cons x rest ih =>
    intro o ho
    simp only [memoFreeListB, Bool.and_eq_true] at h
    rcases List.mem_cons.mp ho with rfl | hmem
    · exact h.1
    · exact ih h.2 o hmem

theorem filterOperands_notFree (pid : Nat) (p : Node → Bool) :
    ∀ (ops l : List Node),
      filterOperands pid p ops = .ok l →
      (∀ o ∈ ops, ∀ fo, filter_tree pid p o = .ok (some fo) → notFreeB fo = true) →
      notFreeListB l = true := by
  intro ops
  induction ops with
  | nil =>
    intro l h _
    obtain rfl : ([] : List Node) = l := by simpa [filterOperands] using h
    rfl
  | cons x rest ih =>
    intro l h helem
    rw [filterOperands] at h
    cases hx : filter_tree pid p x with
    | error e => rw [hx] at h; simp at h
    | ok fo =>
      rw [hx] at h
      simp only [] at h
      cases hrest : filterOperands pid p rest with
      | error e => rw [hrest] at h; simp at h
      | ok l' =>
        rw [hrest] at h
        simp only [] at h
        have hl' : notFreeListB l' = true :=
          ih l' hrest fun o ho => helem o (List.mem_cons_of_mem x ho)
        cases fo with
        | none =>
          obtain rfl : l' = l := by simpa using h
          exact hl'
        | some x' =>
          obtain rfl : x' :: l' = l := by simpa using h
          have hx' : notFreeB x' = true := helem x (List.mem_cons_self x rest) x' hx
          simp [notFreeListB, hx', hl']

/-- Any filter whose predicate is true on every `NotNode` leaves no
`NotNode` in its output, for memo-free input trees. -/
theorem filter_removes_not (pid : Nat) (p : Node → Bool)
    (hpn : ∀ op m, p (.NotNode op m) = true) :
    ∀ (n : Nat) (t : Node), sizeOf t ≤ n → memoFreeB t = true →
      ∀ t', filter_tree pid p t = .ok (some t') → notFreeB t' = true := by
  intro n
  induction n with
  | zero =>
    intro t hsize
    exact absurd hsize (by cases t <;> simp_arith)
  | succ n ih =>
    intro t hsize hmemo t' h
    cases t with
    | PyNone => simp [filter_tree, Node.isNull] at h
    | TermNode tt w ph m =>
      have hm : m = none := by simpa [memoFreeB, Option.isNone_iff_eq_none] using hmemo
      subst hm
      unfold filter_tree at h
      simp only [Node.isNull, Node.getFiltered] at h
      rw [if_neg (by simp), if_neg (by simp)] at h
      cases hp : p (Node.TermNode tt w ph none) with
      | true => rw [hp] at h; simp at h
      | false =>
        rw [hp] at h
        rw [if_neg (by simp)] at h
        obtain rfl : _ = t' := by simpa using h
        rfl
    | NoopNode m =>
      have hm : m = none := by simpa [memoFreeB, Option.isNone_iff_eq_none] using hmemo
      subst hm
      unfold filter_tree at h
      simp only [Node.isNull, Node.getFiltered] at h
      rw [if_neg (by simp), if_neg (by simp)] at h
      cases hp : p (Node.NoopNode none) with
      | true => rw [hp] at h; simp at h
      | false =>
        rw [hp] at h
        rw [if_neg (by simp)] at h
        obtain rfl : _ = t' := by simpa using h
        rfl
    | AndNode ops m =>
      have hmm : m = none ∧ memoFreeListB ops = true := by
        simpa [memoFreeB, Option.isNone_iff_eq_none] using hmemo
      obtain ⟨rfl, hml⟩ := hmm
      unfold filter_tree at h
      simp only [Node.isNull, Node.getFiltered] at h
      rw [if_neg (by simp), if_neg (by simp)] at h
      cases hp : p (Node.AndNode ops none) with
      | true => rw [hp] at h; simp at h
      | false =>
        rw [hp] at h
        rw [if_neg (by simp)] at h
        cases hops : filterOperands pid p ops with
        | error e => rw [hops] at h; simp at h
        | ok l =>
          rw [hops] at h
          simp only [] at h
          cases hl : l.isEmpty with
          | true => rw [hl] at h; simp at h
          | false =>
            rw [hl] at h
            simp only [Bool.false_eq_true, if_false] at h
            obtain rfl : _ = t' := by simpa using h
            have helem : ∀ o ∈ ops, ∀ fo,
                filter_tree pid p o = .ok (some fo) → notFreeB fo = true := by
              intro o ho fo hfo
              have hso : sizeOf o < sizeOf ops := List.sizeOf_lt_of_mem ho
              have hst : sizeOf ops < sizeOf (Node.AndNode ops (none : Option Nat)) := by
                simp_arith
              exact ih o (by omega) (memoFreeList_mem ops hml o ho) fo hfo
            have hlf := filterOperands_notFree pid p ops l hops helem
            simpa [notFreeB, Node.setFiltered] using hlf
    | OrNode ops m =>
      have hmm : m = none ∧ memoFreeListB ops = true := by
        simpa [memoFreeB, Option.isNone_iff_eq_none] using hmemo
      obtain ⟨rfl, hml⟩ := hmm
      unfold filter_tree at h
      simp only [Node.isNull, Node.getFiltered] at h
      rw [if_neg (by simp), if_neg (by simp)] at h
      cases hp : p (Node.OrNode ops none) with
      | true => rw [hp] at h; simp at h
      | false =>
        rw [hp] at h
        rw [if_neg (by simp)] at h
        cases hops : filterOperands pid p ops with
        | error e => rw [hops] at h; simp at h
        | ok l =>
          rw [hops] at h
          simp only [] at h
          cases hl : l.isEmpty with
          | true => rw [hl] at h; simp at h
          | false =>
            rw [hl] at h
            simp only [Bool.false_eq_true, if_false] at h
            obtain rfl : _ = t' := by simpa using h
            have helem : ∀ o ∈ ops, ∀ fo,
                filter_tree pid p o = .ok (some fo) → notFreeB fo = true := by
              intro o ho fo hfo
              have hso : sizeOf o < sizeOf ops := List.sizeOf_lt_of_mem ho
              have hst : sizeOf ops < sizeOf (Node.OrNode ops (none : Option Nat)) := by
                simp_arith
              exact ih o (by omega) (memoFreeList_mem ops hml o ho) fo hfo
            have hlf := filterOperands_notFree pid p ops l hops helem
            simpa [notFreeB, Node.setFiltered] using hlf
    | NotNode op m =>
      have hmm : m = none ∧ memoFreeB op = true := by
        simpa [memoFreeB, Option.isNone_iff_eq_none] using hmemo
      obtain ⟨rfl, _⟩ := hmm
      unfold filter_tree at h
      simp only [Node.isNull, Node.getFiltered] at h
      rw [if_neg (by simp), if_neg (by simp)] at h
      rw [if_pos (hpn op none)] at h
      simp at h
    | FieldNode field op m =>
      have hmm : m = none ∧ memoFreeB op = true := by
        simpa [memoFreeB, Option.isNone_iff_eq_none] using hmemo
      obtain ⟨rfl, hmo⟩ := hmm
      unfold filter_tree at h
      simp only [Node.isNull, Node.getFiltered] at h
      rw [if_neg (by simp), if_neg (by simp)] at h
      cases hp : p (Node.FieldNode field op none) with
      | true => rw [hp] at h; simp at h
      | false =>
        rw [hp] at h
        rw [if_neg (by simp)] at h
        cases hop : filter_tree pid p op with
        | error e => rw [hop] at h; simp at h
        | ok fo =>
          cases fo with
          | none => rw [hop] at h; simp at h
          | some fo' =>
            rw [hop] at h
            simp only [] at h
            obtain rfl : _ = t' := by simpa using h
            have hso : sizeOf op < sizeOf (Node.FieldNode field op (none : Option Nat)) := by
              simp_arith
            have : notFreeB fo' = true := ih op (by omega) hmo fo' hop
            simpa [notFreeB, Node.setFiltered] using this

/-- C8: the regex filter removes every `NotNode` before emission, and a
query that is only negated content — `parse("!foo").re()` — fails with a
syntax error because the filtered tree is empty. -/
theorem claim_C8_re_rejects_negation :
    (∀ (t t' : Node), memoFreeB t = true →
      filter_tree PID_RE node_is_field_or_noop_or_not t = .ok (some t') →
      notFreeB t' = true)
    ∧ query_re "!foo" = .error (.ParseSyntaxError "query is empty without fields or ranges") :=
  ⟨fun t t' hm hf =>
    filter_removes_not PID_RE node_is_field_or_noop_or_not (fun _ _ => rfl)
      (sizeOf t) t le_rfl hm t' hf,
   rfl⟩

/-- C8 witness: filtering `foo and !bar` for the regex backend keeps only
the term; the result contains no `NotNode`. -/
theorem claim_C8_re_rejects_negation_witness :
    notFreeB (.AndNode [.TermNode "foo" false false (some PID_RE)] (some PID_RE)) = true :=
  claim_C8_re_rejects_negation.1
    (.AndNode [.TermNode "foo" false false none,
               .NotNode (.TermNode "bar" false false none) none] none)
    (.AndNode [.TermNode "foo" false false (some PID_RE)] (some PID_RE)) rfl rfl



theorem flatListB_append (a b : List Node) :
    flatListB (a ++ b) = (flatListB a && flatListB b) := by
  induction a with
  | nil => simp [flatListB]
  | cons x rest ih => simp [flatListB, ih, Bool.and_assoc]

theorem flatB_mkTermNode (v : String) : flatB (mkTermNode v) = true := by
  unfold mkTermNode; split <;> rfl

theorem combineBoolean_flat (bc clause : Node)
    (h1 : flatB bc = true) (h2 : flatB clause = true) :
    flatB (combineBoolean bc clause) = true := by
  cases bc <;> cases clause <;>
    simp_all [combineBoolean, flatB, flatListB, flatListB_append, List.all_append,
      Node.isAndNode, Node.isOrNode]

theorem applyBoolean_flat (clause bc : Node)
    (h1 : flatB clause = true) (h2 : flatB bc = true) :
    flatB (applyBoolean clause bc) = true := by
  unfold applyBoolean
  split
  · exact h1
  · exact combineBoolean_flat bc clause h2 h1

theorem mkBooleanNode_flat (isOr : Bool) (clause c : Node)
    (h : mkBooleanNode isOr clause = .ok c) (hc : flatB clause = true) :
    flatB c = true := by
  cases isOr <;> cases clause <;>
    (simp only [mkBooleanNode] at h
     split at h <;>
       first
       | exact Except.noConfusion h
       | (obtain rfl : _ = c := by simpa using h
          simp_all [flatB, flatListB, Node.isAndNode, Node.isOrNode]))

theorem step3_bc (hb0 : Bool) (clause bc0 : Node) (tok : Token) (rest : List Token) :
    (step3 hb0 clause bc0 tok rest).2.2 = clause ∨ (step3 hb0 clause bc0 tok rest).2.2 = bc0 := by
  unfold step3
  split
  · exact Or.inl rfl
  · split
    · exact Or.inr rfl
    · split
      · exact Or.inr rfl
      · exact Or.inr rfl

/-- Every clause `parseLoop` returns satisfies the And/Or flattening
invariant, provided the incoming `clause` and `boolean_clause` do. -/
theorem parseLoop_flat :
    ∀ (f : Nat) (toks : List Token) (want : List TokType) (clause bc : Node) (hb : Bool)
      (res : Node × List Token),
      flatB clause = true → flatB bc = true →
      parseLoop f toks want clause bc hb = .ok res → flatB res.1 = true := by
  intro f
  induction f with
  | zero => intro toks want clause bc hb res _ _ h; simp [parseLoop] at h
  | succ f ih =>
    intro toks want clause bc0 hb0 res hc hbc h
    cases toks with
    | nil =>
      obtain rfl : (clause, ([] : List Token)) = res := by simpa [parseLoop] using h
      exact hc
    | cons tok rest =>
      unfold parseLoop at h
      split at h
      · exact ih rest want clause bc0 hb0 res hc hbc h
      · rcases hstep : step3 hb0 clause bc0 tok rest with ⟨toks1, token, bc⟩
        rw [hstep] at h
        simp only [] at h
        have hbcf : flatB bc = true := by
          rcases step3_bc hb0 clause bc0 tok rest with h' | h' <;> rw [hstep] at h' <;>
            simp only [] at h' <;> rw [h']
          · exact hc
          · exact hbc
        split at h
        · simp at h
        · obtain ⟨v, ty⟩ := token
          cases ty
          case T_OPEN =>
            (try simp only [] at h)
            cases hrec : parseLoop f toks1 WANT_GROUP .PyNone .PyNone false with
            | error e => rw [hrec] at h; simp at h
            | ok pr =>
              obtain ⟨cl, toks2⟩ := pr
              rw [hrec] at h
              simp only [] at h
              have hcl : flatB cl = true :=
                ih toks1 WANT_GROUP .PyNone .PyNone false (cl, toks2) rfl rfl hrec
              exact ih toks2 _ _ _ _ res (applyBoolean_flat cl bc hcl hbcf) (by rfl) h
          case T_CLOSE =>
            obtain rfl : (clause, toks1) = res := by simpa using h
            exact hc
          case T_PHRASE =>
            exact ih toks1 _ _ _ _ res (applyBoolean_flat _ bc (by rfl) hbcf) (by rfl) h
          case T_AND =>
            (try simp only [] at h)
            cases hmk : mkBooleanNode false clause with
            | error e => rw [hmk] at h; simp at h
            | ok c =>
              rw [hmk] at h
              simp only [] at h
              exact ih toks1 _ _ _ _ res
                (applyBoolean_flat c bc (mkBooleanNode_flat false clause c hmk hc) hbcf) (by rfl) h
          case T_OR =>
            (try simp only [] at h)
            cases hmk : mkBooleanNode true clause with
            | error e => rw [hmk] at h; simp at h
            | ok c =>
              rw [hmk] at h
              simp only [] at h
              exact ih toks1 _ _ _ _ res
                (applyBoolean_flat c bc (mkBooleanNode_flat true clause c hmk hc) hbcf) (by rfl) h
          case T_PLUS =>
            (try simp only [] at h)
            cases hmk : mkBooleanNode false clause with
            | error e => rw [hmk] at h; simp at h
            | ok c =>
              rw [hmk] at h
              simp only [] at h
              exact ih toks1 _ _ _ _ res
                (applyBoolean_flat c bc (mkBooleanNode_flat false clause c hmk hc) hbcf) (by rfl) h
          case T_NOT =>
            (try simp only [] at h)
            cases toks1 with
            | nil => simp at h
            | cons next rest2 =>
              (try simp only [] at h)
              split at h
              · cases hrec : parseLoop f rest2 WANT_NOT_GROUP .PyNone .PyNone false with
                | error e => rw [hrec] at h; simp at h
                | ok pr =>
                  obtain ⟨operand, toks2⟩ := pr
                  rw [hrec] at h
                  simp only [] at h
                  split at h
                  · simp at h
                  · have hop : flatB operand = true :=
                      ih rest2 WANT_NOT_GROUP .PyNone .PyNone false (operand, toks2) rfl rfl hrec
                    exact ih toks2 _ _ _ _ res
                      (applyBoolean_flat _ bc (by simpa [flatB] using hop) hbcf) (by rfl) h
              · split at h
                · cases hrec : parseLoop f (next :: rest2) [TokType.T_FIELD] .PyNone .PyNone false with
                  | error e => rw [hrec] at h; simp at h
                  | ok pr =>
                    obtain ⟨operand, toks2⟩ := pr
                    rw [hrec] at h
                    simp only [] at h
                    split at h
                    · simp at h
                    · have hop : flatB operand = true :=
                        ih (next :: rest2) [TokType.T_FIELD] .PyNone .PyNone false
                          (operand, toks2) rfl rfl hrec
                      exact ih toks2 _ _ _ _ res
                        (applyBoolean_flat _ bc (by simpa [flatB] using hop) hbcf) (by rfl) h
                · cases hrec : parseLoop f [next] WANT_NOT_SINGLE .PyNone .PyNone false with
                  | error e => rw [hrec] at h; simp at h
                  | ok pr =>
                    obtain ⟨operand, toks2⟩ := pr
                    rw [hrec] at h
                    simp only [] at h
                    split at h
                    · simp at h
                    · have hop : flatB operand = true :=
                        ih [next] WANT_NOT_SINGLE .PyNone .PyNone false
                          (operand, toks2) rfl rfl hrec
                      exact ih rest2 _ _ _ _ res
                        (applyBoolean_flat _ bc (by simpa [flatB] using hop) hbcf) (by rfl) h
          case T_FIELD =>
            (try simp only [] at h)
            cases toks1 with
            | nil => simp at h
            | cons next rest2 =>
              (try simp only [] at h)
              split at h
              · cases hrec : parseLoop f rest2 WANT_FIELD_GROUP .PyNone .PyNone false with
                | error e => rw [hrec] at h; simp at h
                | ok pr =>
                  obtain ⟨fieldClause, toks2⟩ := pr
                  rw [hrec] at h
                  simp only [] at h
                  split at h
                  · simp at h
                  · have hfc : flatB fieldClause = true :=
                      ih rest2 WANT_FIELD_GROUP .PyNone .PyNone false
                        (fieldClause, toks2) rfl rfl hrec
                    exact ih toks2 _ _ _ _ res
                      (applyBoolean_flat _ bc (by simpa [flatB] using hfc) hbcf) (by rfl) h
              · cases hrec : parseLoop f [next] WANT_FIELD_SINGLE .PyNone .PyNone false with
                | error e => rw [hrec] at h; simp at h
                | ok pr =>
                  obtain ⟨fieldClause, toks2⟩ := pr
                  rw [hrec] at h
                  simp only [] at h
                  split at h
                  · simp at h
                  · have hfc : flatB fieldClause = true :=
                      ih [next] WANT_FIELD_SINGLE .PyNone .PyNone false
                        (fieldClause, toks2) rfl rfl hrec
                    exact ih rest2 _ _ _ _ res
                      (applyBoolean_flat _ bc (by simpa [flatB] using hfc) hbcf) (by rfl) h
          case T_TERM =>
            exact ih toks1 _ _ _ _ res
              (applyBoolean_flat _ bc (flatB_mkTermNode v) hbcf) (by rfl) h
          case T_NOOP =>
            exact ih toks1 _ _ _ _ res (applyBoolean_flat _ bc (by rfl) hbcf) (by rfl) h
          case T_MINUS =>
            simp at h

/-- C3: every tree `parse` returns satisfies the flattening invariant: no
`AndNode` has an `AndNode` direct operand, no `OrNode` an `OrNode` one. -/
theorem claim_C3_flattening (q : String) (t : Node) (h : parse q = .ok t) :
    flatB t = true := by
  unfold parse at h
  cases htk : get_tokens ("( " ++ q ++ " )") with
  | error e => rw [htk] at h; simp at h
  | ok tokens =>
    rw [htk] at h
    simp only [] at h
    cases hpl : parseLoop (8 * tokens.length + 32) tokens WANT_DEFAULT .PyNone .PyNone false with
    | error e => rw [hpl] at h; simp at h
    | ok pr =>
      rw [hpl] at h
      simp only [] at h
      obtain rfl : pr.1 = t := by
        cases pr; simpa using h
      exact parseLoop_flat _ tokens WANT_DEFAULT .PyNone .PyNone false pr rfl rfl hpl

/-- C3 witness: a mixed query with nested groups parses flat. -/
theorem claim_C3_flattening_witness :
    flatB (.OrNode [.AndNode [.TermNode "foo" false false none,
                              .TermNode "bar" false false none] none,
                    .TermNode "baz" false false none] none) = true :=
  claim_C3_flattening "foo and bar or baz"
    (.OrNode [.AndNode [.TermNode "foo" false false none,
                        .TermNode "bar" false false none] none,
              .TermNode "baz" false false none] none) rfl



theorem coreEq_refl (a : NodeObj) : coreEq a a :=
  ⟨rfl, rfl, rfl, rfl, rfl, rfl⟩

theorem coreEq_trans {a b c : NodeObj} (h1 : coreEq a b) (h2 : coreEq b c) : coreEq a c := by
  obtain ⟨x1, x2, x3, x4, x5, x6⟩ := h1
  obtain ⟨y1, y2, y3, y4, y5, y6⟩ := h2
  exact ⟨x1.trans y1, x2.trans y2, x3.trans y3, x4.trans y4, x5.trans y5, x6.trans y6⟩

theorem corePreserved_refl (st : List NodeObj) : corePreserved st st :=
  fun _ a h => ⟨a, h, coreEq_refl a⟩

theorem corePreserved_trans {st1 st2 st3 : List NodeObj}
    (h1 : corePreserved st1 st2) (h2 : corePreserved st2 st3) : corePreserved st1 st3 := by
  intro i a ha
  obtain ⟨b, hb, hba⟩ := h1 i a ha
  obtain ⟨c, hc, hcb⟩ := h2 i b hb
  exact ⟨c, hc, coreEq_trans hcb hba⟩

theorem corePreserved_append (st xs : List NodeObj) : corePreserved st (st ++ xs) := by
  intro i a ha
  have hlt : i < st.length := (List.getElem?_eq_some.mp ha).1
  exact ⟨a, by rw [List.getElem?_append_left hlt]; exact ha, coreEq_refl a⟩

theorem modifyAt_corePreserved (st : List NodeObj) (i : Nat) (g : NodeObj → NodeObj)
    (hg : ∀ o, coreEq (g o) o) : corePreserved st (modifyAt st i g) := by
  unfold modifyAt
  cases hio : st[i]? with
  | none => exact corePreserved_refl st
  | some o =>
    intro j a ha
    by_cases hij : i = j
    · subst hij
      obtain rfl : o = a := by rw [hio] at ha; simpa using ha
      have hlt : i < st.length := (List.getElem?_eq_some.mp hio).1
      exact ⟨g o, List.getElem?_set_self hlt, hg o⟩
    · exact ⟨a, by rw [List.getElem?_set_ne hij]; exact ha, coreEq_refl a⟩

theorem setParentS_corePreserved (st : List NodeObj) (i pr : Nat) :
    corePreserved st (setParentS st i pr) :=
  modifyAt_corePreserved st i _ fun _ => ⟨rfl, rfl, rfl, rfl, rfl, rfl⟩

theorem setFilteredS_corePreserved (st : List NodeObj) (i pid : Nat) :
    corePreserved st (setFilteredS st i pid) :=
  modifyAt_corePreserved st i _ fun _ => ⟨rfl, rfl, rfl, rfl, rfl, rfl⟩

theorem foldl_setParentS_corePreserved (l : List Nat) (j : Nat) :
    ∀ st : List NodeObj, corePreserved st (l.foldl (fun s c => setParentS s c j) st) := by
  induction l with
  | nil => intro st; exact corePreserved_refl st
  | cons c rest ih =>
    intro st
    exact corePreserved_trans (setParentS_corePreserved st c j) (ih (setParentS st c j))

/-- Joint preservation statement for `filterS` and `filterOpsS`: a
successful run only appends fresh nodes and updates `parent` /
`filtered_by` fields, so every pre-existing entry keeps its core
fields. -/
theorem filterS_corePreserved :
    ∀ f : Nat,
      (∀ (st : List NodeObj) (r : Option Nat) (pid : Nat) (p : NodeObj → Bool)
        (out : List NodeObj × Option Nat),
        filterS f st r pid p = .ok out → corePreserved st out.1)
      ∧ (∀ (st : List NodeObj) (ops : List (Option Nat)) (pid : Nat) (p : NodeObj → Bool)
        (out : List NodeObj × List Nat),
        filterOpsS f st ops pid p = .ok out → corePreserved st out.1) := by
  intro f
  induction f using Nat.strong_induction_on with
  | _ f ih =>
    constructor
    · intro st r pid p out h
      cases r with
      | none => cases f <;> simp [filterS] at h
      | some rr =>
        cases f with
        | zero => simp [filterS] at h
        | succ f' =>
          unfold filterS at h
          cases hobj : st[rr]? with
          | none => rw [hobj] at h; simp at h
          | some obj =>
            rw [hobj] at h
            simp only [] at h
            split at h
            · obtain rfl : (st, some rr) = out := by simpa using h
              exact corePreserved_refl st
            · split at h
              · obtain rfl : (st, (none : Option Nat)) = out := by simpa using h
                exact corePreserved_refl st
              · cases hk : obj.kind
                all_goals rw [hk] at h
                all_goals simp only [] at h
                case KTerm =>
                  obtain rfl : _ = out := by simpa using h
                  exact corePreserved_trans (corePreserved_append st _)
                    (setFilteredS_corePreserved _ st.length pid)
                case KNoop =>
                  obtain rfl : _ = out := by simpa using h
                  exact corePreserved_trans (corePreserved_append st _)
                    (setFilteredS_corePreserved _ st.length pid)
                case KAnd =>
                  cases hops : filterOpsS f' st obj.operands pid p with
                  | error e => rw [hops] at h; simp at h
                  | ok pr =>
                    obtain ⟨st1, survivors⟩ := pr
                    rw [hops] at h
                    simp only [] at h
                    have hp1 : corePreserved st st1 :=
                      (ih f' (Nat.lt_succ_self f')).2 st obj.operands pid p (st1, survivors) hops
                    split at h
                    · obtain rfl : (st1, (none : Option Nat)) = out := by simpa using h
                      exact hp1
                    · obtain rfl : _ = out := by simpa using h
                      refine corePreserved_trans hp1 (corePreserved_trans (corePreserved_append st1 _)
                        (corePreserved_trans (foldl_setParentS_corePreserved survivors st1.length _)
                          (setFilteredS_corePreserved _ st1.length pid)))
                case KOr =>
                  cases hops : filterOpsS f' st obj.operands pid p with
                  | error e => rw [hops] at h; simp at h
                  | ok pr =>
                    obtain ⟨st1, survivors⟩ := pr
                    rw [hops] at h
                    simp only [] at h
                    have hp1 : corePreserved st st1 :=
                      (ih f' (Nat.lt_succ_self f')).2 st obj.operands pid p (st1, survivors) hops
                    split at h
                    · obtain rfl : (st1, (none : Option Nat)) = out := by simpa using h
                      exact hp1
                    · obtain rfl : _ = out := by simpa using h
                      refine corePreserved_trans hp1 (corePreserved_trans (corePreserved_append st1 _)
                        (corePreserved_trans (foldl_setParentS_corePreserved survivors st1.length _)
                          (setFilteredS_corePreserved _ st1.length pid)))
                case KNot =>
                  rcases hK : obj.operands with _ | ⟨opr, _ | ⟨o2, tl⟩⟩
                  all_goals rw [hK] at h
                  all_goals (try simp only [] at h)
                  case nil => simp at h
                  case cons.cons => simp at h
                  case cons.nil =>
                    cases hrec : filterS f' st opr pid p with
                    | error e => rw [hrec] at h; simp at h
                    | ok pr =>
                      obtain ⟨st1, fo⟩ := pr
                      have hp1 : corePreserved st st1 :=
                        (ih f' (Nat.lt_succ_self f')).1 st opr pid p (st1, fo) hrec
                      cases fo with
                      | none =>
                        rw [hrec] at h
                        simp only [] at h
                        obtain rfl : (st1, (none : Option Nat)) = out := by simpa using h
                        exact hp1
                      | some c =>
                        rw [hrec] at h
                        simp only [] at h
                        obtain rfl : _ = out := by simpa using h
                        refine corePreserved_trans hp1
                          (corePreserved_trans (corePreserved_append st1 _)
                            (corePreserved_trans (setParentS_corePreserved _ c st1.length)
                              (setFilteredS_corePreserved _ st1.length pid)))
                case KField =>
                  rcases hK : obj.operands with _ | ⟨opr, _ | ⟨o2, tl⟩⟩
                  all_goals rw [hK] at h
                  all_goals (try simp only [] at h)
                  case nil => simp at h
                  case cons.cons => simp at h
                  case cons.nil =>
                    cases hrec : filterS f' st opr pid p with
                    | error e => rw [hrec] at h; simp at h
                    | ok pr =>
                      obtain ⟨st1, fo⟩ := pr
                      have hp1 : corePreserved st st1 :=
                        (ih f' (Nat.lt_succ_self f')).1 st opr pid p (st1, fo) hrec
                      cases fo with
                      | none =>
                        rw [hrec] at h
                        simp only [] at h
                        obtain rfl : (st1, (none : Option Nat)) = out := by simpa using h
                        exact hp1
                      | some c =>
                        rw [hrec] at h
                        simp only [] at h
                        obtain rfl : _ = out := by simpa using h
                        refine corePreserved_trans hp1
                          (corePreserved_trans (corePreserved_append st1 _)
                            (corePreserved_trans (setParentS_corePreserved _ c st1.length)
                              (setFilteredS_corePreserved _ st1.length pid)))
    · intro st ops pid p out h
      cases ops with
      | nil =>
        obtain rfl : (st, ([] : List Nat)) = out := by
          cases f <;> simpa [filterOpsS] using h
        exact corePreserved_refl st
      | cons o rest =>
        cases f with
        | zero => simp [filterOpsS] at h
        | succ f' =>
          unfold filterOpsS at h
          cases h1 : filterS f' st o pid p with
          | error e => rw [h1] at h; simp at h
          | ok pr1 =>
            obtain ⟨st1, fo⟩ := pr1
            rw [h1] at h
            simp only [] at h
            cases h2 : filterOpsS f' st1 rest pid p with
            | error e => rw [h2] at h; simp at h
            | ok pr2 =>
              obtain ⟨st2, l⟩ := pr2
              rw [h2] at h
              simp only [] at h
              obtain rfl : _ = out := by simpa using h
              exact corePreserved_trans
                ((ih f' (Nat.lt_succ_self f')).1 st o pid p (st1, fo) h1)
                ((ih f' (Nat.lt_succ_self f')).2 st1 rest pid p (st2, l) h2)

/-- C9: the filter pass does not mutate its input: after a successful
`filterS` run over the store, every pre-existing node keeps its class,
term text, wildcard/phrase flags, field name and operand list (only the
`parent` back-reference and the `filtered_by` memo of store entries may
change, and fresh nodes are appended). -/
theorem claim_C9_filter_no_mutation (f : Nat) (st : List NodeObj) (r pid : Nat)
    (p : NodeObj → Bool) (out : List NodeObj × Option Nat)
    (h : filterS f st (some r) pid p = .ok out) :
    ∀ (i : Nat) (a : NodeObj), st[i]? = some a → ∃ b, out.1[i]? = some b ∧ coreEq b a :=
  fun i a ha => (filterS_corePreserved f).1 st (some r) pid p out h i a ha

/-- C9 witness: filtering `foo and !foo`-shaped heap content with the
NotNode-dropping predicate leaves the original three nodes' core fields
intact (the result allocates indices 3 and 4 and only back-patches
`parent`/`filtered_by`). -/
theorem claim_C9_filter_no_mutation_witness :
    ∃ b, ([{ kind := NKind.KTerm, term := "foo" },
           { kind := NKind.KNot, operands := [some 0] },
           { kind := NKind.KAnd, operands := [some 0, some 1] },
           { kind := NKind.KTerm, term := "foo", parent := some 4, filtered_by := some 7 },
           { kind := NKind.KAnd, operands := [some 3], filtered_by := some 7 }]
            : List NodeObj)[1]?
        = some b
      ∧ coreEq b { kind := NKind.KNot, operands := [some 0] } :=
  claim_C9_filter_no_mutation 10
    [{ kind := .KTerm, term := "foo" },
     { kind := .KNot, operands := [some 0] },
     { kind := .KAnd, operands := [some 0, some 1] }]
    2 7 (fun o => o.kind = NKind.KNot)
    ([{ kind := NKind.KTerm, term := "foo" },
      { kind := NKind.KNot, operands := [some 0] },
      { kind := NKind.KAnd, operands := [some 0, some 1] },
      { kind := NKind.KTerm, term := "foo", parent := some 4, filtered_by := some 7 },
      { kind := NKind.KAnd, operands := [some 3], filtered_by := some 7 }], some 4)
    rfl 1 { kind := NKind.KNot, operands := [some 0] } rfl


end MWSolr
